import Mathlib

/-!
Verification of the RAG pipeline core of the `pseg-rag-cicd-web` repository.

Shallow embedding of the Python sources:
  backend/app/utils/thresholds.py     (retrieval gating)
  backend/app/utils/text.py           (snippet truncation)
  backend/app/services/chunk_service.py (document chunking)
  backend/app/services/rag_service.py (RAG orchestration, citations)
  backend/app/services/search_service.py (batched index upsert)
  backend/app/api/routes_ingest.py    (ingestion run)

Python floats are modelled as rationals (ℚ); the float constants appearing
in comparisons (`0.5 * chunk_size` with the even default 1000, and
`0.7 * 200 = 140.0`) are exactly representable, so the rational comparisons
agree with the Python float comparisons at the parameter values the claims
are about.  External collaborators (the OpenAI client, the Azure search
client, the blob store, the PDF extractor) are modelled as explicit
function parameters returning `Except`, mirroring Python calls that either
return a value or raise.  Python strings are modelled as `String` at the
data-model level and as `List Char` inside the character-indexing
algorithms (Python indexes strings by character).
-/

set_option maxHeartbeats 1600000
set_option maxRecDepth 8192

namespace RagPipeline

/-! ### Data model (backend/app/models/schemas.py, dataclasses) -/

/-- Metadata for a document chunk (`ChunkMetadata` in schemas.py).
`page_number` is `Optional[int]` in the source. -/
structure ChunkMetadata where
  source_file : String
  page_number : Option Nat
  chunk_id : String
  source_url : String
  deriving DecidableEq, Repr

/-- A chunk retrieved from the search index (`RetrievedChunk` in schemas.py).
`score : float` is modelled as a rational. -/
structure RetrievedChunk where
  content : String
  score : ℚ
  metadata : ChunkMetadata
  deriving DecidableEq, Repr

/-- Citation for a source used in generating the answer (`Citation`). -/
structure Citation where
  source_file : String
  page_number : Option Nat
  source_url : String
  snippet : String
  deriving DecidableEq, Repr

/-- A single message in the conversation history (`ConversationMessage`). -/
structure ConversationMessage where
  role : String
  content : String
  deriving DecidableEq, Repr

/-- Response model for the chat endpoint (`ChatResponse`). -/
structure ChatResponse where
  answer : String
  citations : List Citation
  out_of_context : Bool
  retrieved_chunks_count : Nat
  deriving DecidableEq, Repr

/-- Response model for the ingest endpoint (`IngestResponse`).
`details` is always populated by the route, so it is a plain list here. -/
structure IngestResponse where
  success : Bool
  num_pdfs_processed : Nat
  num_chunks_indexed : Nat
  num_failures : Nat
  message : String
  details : List String
  deriving DecidableEq, Repr

deriving instance DecidableEq for Except

/-! ### Retrieval gating (backend/app/utils/thresholds.py) -/

/-- Result of retrieval quality check (`GatingResult` in thresholds.py). -/
structure GatingResult where
  passed : Bool
  reason : String
  top_score : Option ℚ
  num_chunks : Nat
  deriving DecidableEq, Repr

/-- Maximum of the scores of a nonempty chunk list, as Python's
`max(chunk.score for chunk in chunks)` computes it (a running fold). -/
def topScoreOf (c : RetrievedChunk) (cs : List RetrievedChunk) : ℚ :=
  cs.foldl (fun m ch => max m ch.score) c.score

/-- Embedding of `check_retrieval_quality` from thresholds.py.  Python's
`f"{top_score:.3f}"` float formatting is modelled by `toString` on ℚ; no
claim depends on the digits of the failure reason. -/
def check_retrieval_quality (chunks : List RetrievedChunk)
    (score_threshold : ℚ) (strict_grounding : Bool) : GatingResult :=
  match chunks with
  | [] =>
    { passed := false
      reason := "No documents retrieved from search"
      top_score := none
      num_chunks := 0 }
  | c :: cs =>
    let top_score := topScoreOf c cs
    if strict_grounding ∧ top_score < score_threshold then
      { passed := false
        reason := "Top retrieval score (" ++ toString top_score ++
          ") below threshold (" ++ toString score_threshold ++ ")"
        top_score := some top_score
        num_chunks := (c :: cs).length }
    else
      { passed := true
        reason := "Retrieval quality check passed"
        top_score := some top_score
        num_chunks := (c :: cs).length }

/-- The fixed refusal text `OUT_OF_CONTEXT_MESSAGE` from thresholds.py. -/
def OUT_OF_CONTEXT_MESSAGE : String :=
  "Your question is outside the provided documents. " ++
  "I can\x27t answer it from the PDFs I have. " ++
  "Please ask a question related to the content in the uploaded documents."

/-! Helper lemmas about the running maximum. -/

theorem foldl_max_le (l : List ℚ) (a : ℚ) :
    ∀ x ∈ a :: l, x ≤ l.foldl max a := by
  induction l generalizing a with
  | nil => intro x hx; simp at hx; simp [hx]
  | cons b l ih =>
    intro x hx
    simp only [List.mem_cons] at hx
    rcases hx with rfl | rfl | hx
    · calc x ≤ max x b := le_max_left _ _
        _ ≤ l.foldl max (max x b) := ih (max x b) _ (by simp)
    · calc x ≤ max a x := le_max_right _ _
        _ ≤ l.foldl max (max a x) := ih (max a x) _ (by simp)
    · exact ih (max a b) x (by simp [hx])

theorem foldl_max_mem (l : List ℚ) (a : ℚ) :
    l.foldl max a ∈ a :: l := by
  induction l generalizing a with
  | nil => simp
  | cons b l ih =>
    simp only [List.foldl_cons]
    rcases List.mem_cons.mp (ih (max a b)) with h' | h'
    · rcases max_choice a b with hm | hm
      · rw [h', hm]; exact List.mem_cons_self _ _
      · rw [h', hm]; exact List.mem_cons_of_mem _ (List.mem_cons_self _ _)
    · exact List.mem_cons_of_mem _ (List.mem_cons_of_mem _ h')

theorem topScoreOf_mem (c : RetrievedChunk) (cs : List RetrievedChunk) :
    topScoreOf c cs ∈ (c :: cs).map RetrievedChunk.score := by
  have h := foldl_max_mem (cs.map RetrievedChunk.score) c.score
  have hfold : (cs.map RetrievedChunk.score).foldl max c.score = topScoreOf c cs := by
    simp [topScoreOf, List.foldl_map]
  rw [hfold] at h
  simpa using h

theorem topScoreOf_ge (c : RetrievedChunk) (cs : List RetrievedChunk) :
    ∀ x ∈ (c :: cs).map RetrievedChunk.score, x ≤ topScoreOf c cs := by
  intro x hx
  have h := foldl_max_le (cs.map RetrievedChunk.score) c.score x
  have hfold : (cs.map RetrievedChunk.score).foldl max c.score = topScoreOf c cs := by
    simp [topScoreOf, List.foldl_map]
  rw [hfold] at h
  exact h (by simpa using hx)

/-- C3: `check_retrieval_quality` satisfies the gating contract: the empty
result list always fails with `top_score = none` and count 0; for a
nonempty list, `top_score` is the maximum score of the results, the gate
fails iff `strict` holds and that maximum is strictly below the threshold
(so an exact-threshold score passes), and with `strict = false` a nonempty
list always passes. -/
theorem gate_contract :
    (∀ (thr : ℚ) (strict : Bool),
      check_retrieval_quality [] thr strict =
        { passed := false, reason := "No documents retrieved from search",
          top_score := none, num_chunks := 0 }) ∧
    (∀ (c : RetrievedChunk) (cs : List RetrievedChunk) (thr : ℚ) (strict : Bool),
      let g := check_retrieval_quality (c :: cs) thr strict
      (∃ m, g.top_score = some m ∧ m ∈ (c :: cs).map RetrievedChunk.score ∧
        ∀ x ∈ (c :: cs).map RetrievedChunk.score, x ≤ m) ∧
      g.num_chunks = (c :: cs).length ∧
      (g.passed = false ↔ (strict = true ∧ topScoreOf c cs < thr)) ∧
      (strict = false → g.passed = true) ∧
      (topScoreOf c cs = thr → g.passed = true)) := by
  constructor
  · intro thr strict; rfl
  · intro c cs thr strict
    refine ⟨?_, ?_, ?_, ?_, ?_⟩
    · refine ⟨topScoreOf c cs, ?_, topScoreOf_mem c cs, topScoreOf_ge c cs⟩
      by_cases h : strict = true ∧ topScoreOf c cs < thr <;>
        simp [check_retrieval_quality, h]
    · by_cases h : strict = true ∧ topScoreOf c cs < thr <;>
        simp [check_retrieval_quality, h]
    · by_cases h : strict = true ∧ topScoreOf c cs < thr <;>
        simp [check_retrieval_quality, h]
    · intro hs
      simp [check_retrieval_quality, hs]
    · intro he
      by_cases hs : strict = true <;>
        simp [check_retrieval_quality, hs, he, lt_irrefl]

/-- Witness for `gate_contract` at a concrete input: a single chunk scored
exactly at the threshold `3/10` passes the strict gate, and the empty
result list fails even with `strict = false`. -/
theorem gate_contract_witness :
    (check_retrieval_quality
      [⟨"a", (3 : ℚ)/10, ⟨"d.pdf", some 1, "id1", "u"⟩⟩]
      ((3 : ℚ)/10) true).passed = true ∧
    (check_retrieval_quality [] ((3 : ℚ)/10) false).passed = false := by
  constructor
  · exact (gate_contract.2
      ⟨"a", (3 : ℚ)/10, ⟨"d.pdf", some 1, "id1", "u"⟩⟩ []
      ((3 : ℚ)/10) true).2.2.2.2 rfl
  · rw [gate_contract.1 ((3 : ℚ)/10) false]

/-! ### Text utilities (backend/app/utils/text.py) -/

/-- The ASCII whitespace characters of Python's `str.strip`. -/
def isPySpace (c : Char) : Bool :=
  c == ' ' || c == '\t' || c == '\n' || c == '\r' || c == '\x0b' || c == '\x0c'

/-- Remove trailing whitespace, as Python's `str.rstrip()`. -/
def rstrip (l : List Char) : List Char :=
  (l.reverse.dropWhile isPySpace).reverse

/-- Remove leading and trailing whitespace, as Python's `str.strip()`. -/
def pyStrip (l : List Char) : List Char :=
  rstrip (l.dropWhile isPySpace)

/-- Python's `s.rfind(sep)`: the greatest index at which `sep` occurs in
`s`, or `none` where Python returns `-1`. -/
def rfindSub (s sep : List Char) : Option Nat :=
  ((List.range (s.length + 1)).filter (fun i => sep.isPrefixOf (s.drop i))).max?

/-- Embedding of `truncate_text` from text.py on character lists.  The
float guard `last_space > max_length * 0.7` is modelled by the integer
comparison `10 * last_space > 7 * max_length`, which agrees with the float
comparison at the call site's `max_length = 200` (`200 * 0.7` is exactly
`140.0` in binary floating point). -/
def pyTruncate (l : List Char) (max_length : Nat) (suffix : List Char) : List Char :=
  if l.length = 0 ∨ l.length ≤ max_length then l
  else
    let truncated := l.take (max_length - suffix.length)
    let cut :=
      match rfindSub truncated [' '] with
      | some i => if 10 * i > 7 * max_length then truncated.take i else truncated
      | none => truncated
    rstrip cut ++ suffix

/-- Embedding of `truncate_text` from text.py (string version). -/
def truncate_text (text : String) (max_length : Nat) (suffix : String) : String :=
  String.mk (pyTruncate text.toList max_length suffix.toList)

theorem rstrip_length_le (l : List Char) : (rstrip l).length ≤ l.length := by
  simpa [rstrip] using (List.dropWhile_sublist (l := l.reverse) (p := isPySpace)).length_le

theorem pyTruncate_eq_of_le (l suffix : List Char) (n : Nat) (h : l.length ≤ n) :
    pyTruncate l n suffix = l := by
  rw [pyTruncate, if_pos (Or.inr h)]

theorem pyTruncate_cut_at_space (l suffix : List Char) (n i : Nat)
    (hm : rfindSub (l.take (n - suffix.length)) [' '] = some i)
    (hq : 10 * i > 7 * n) (h : n < l.length) :
    pyTruncate l n suffix = rstrip ((l.take (n - suffix.length)).take i) ++ suffix := by
  rw [pyTruncate, if_neg (by omega)]
  simp only [hm]
  rw [if_pos hq]

theorem pyTruncate_low_space (l suffix : List Char) (n i : Nat)
    (hm : rfindSub (l.take (n - suffix.length)) [' '] = some i)
    (hq : ¬ 10 * i > 7 * n) (h : n < l.length) :
    pyTruncate l n suffix = rstrip (l.take (n - suffix.length)) ++ suffix := by
  rw [pyTruncate, if_neg (by omega)]
  simp only [hm]
  rw [if_neg hq]

theorem pyTruncate_no_space (l suffix : List Char) (n : Nat)
    (hm : rfindSub (l.take (n - suffix.length)) [' '] = none)
    (h : n < l.length) :
    pyTruncate l n suffix = rstrip (l.take (n - suffix.length)) ++ suffix := by
  rw [pyTruncate, if_neg (by omega)]
  simp only [hm]

theorem pyTruncate_length_le (l suffix : List Char) (n : Nat)
    (hs : suffix.length ≤ n) : (pyTruncate l n suffix).length ≤ n := by
  by_cases h : l.length ≤ n
  · rw [pyTruncate_eq_of_le l suffix n h]; exact h
  · push_neg at h
    have ht : (l.take (n - suffix.length)).length ≤ n - suffix.length := by
      simp [List.length_take]
    have key : ∀ cut : List Char, cut.length ≤ n - suffix.length →
        (rstrip cut ++ suffix).length ≤ n := by
      intro cut hcut
      have := rstrip_length_le cut
      simp only [List.length_append]
      omega
    rcases hm : rfindSub (l.take (n - suffix.length)) [' '] with _ | i
    · rw [pyTruncate_no_space l suffix n hm h]
      exact key _ ht
    · by_cases hq : 10 * i > 7 * n
      · rw [pyTruncate_cut_at_space l suffix n i hm hq h]
        refine key _ ?_
        have h1 : ((l.take (n - suffix.length)).take i).length
            ≤ (l.take (n - suffix.length)).length := by
          rw [List.length_take]
          exact Nat.min_le_right _ _
        omega
      · rw [pyTruncate_low_space l suffix n i hm hq h]
        exact key _ ht

/-- C8: the snippet produced by `truncate_text` at `max_length = 200` has
length at most 200; a text within the limit is returned unchanged; a text
over the limit is cut at the last space of the first 197 kept characters
when that space lies past 70% of the limit (index > 140), otherwise
hard-cut, and in every truncated case the result ends with the ellipsis
suffix. -/
theorem truncate_snippet_contract (s : String) :
    (truncate_text s 200 "...").length ≤ 200 ∧
    (s.length ≤ 200 → truncate_text s 200 "..." = s) ∧
    (200 < s.length →
      (∀ i, rfindSub (s.toList.take 197) [' '] = some i → 140 < i →
        (truncate_text s 200 "...").toList
          = rstrip ((s.toList.take 197).take i) ++ "...".toList) ∧
      (∀ i, rfindSub (s.toList.take 197) [' '] = some i → i ≤ 140 →
        (truncate_text s 200 "...").toList
          = rstrip (s.toList.take 197) ++ "...".toList) ∧
      (rfindSub (s.toList.take 197) [' '] = none →
        (truncate_text s 200 "...").toList
          = rstrip (s.toList.take 197) ++ "...".toList) ∧
      ∃ body, (truncate_text s 200 "...").toList = body ++ "...".toList) := by
  have hlen : s.length = s.toList.length := rfl
  have hl3 : ("...".toList : List Char).length = 3 := rfl
  have h197 : (200 : Nat) - ("...".toList : List Char).length = 197 := rfl
  have hbody : (truncate_text s 200 "...").toList
      = pyTruncate s.toList 200 "...".toList := rfl
  refine ⟨?_, ?_, ?_⟩
  · show (pyTruncate s.toList 200 "...".toList).length ≤ 200
    exact pyTruncate_length_le s.toList "...".toList 200 (by omega)
  · intro h
    show String.mk (pyTruncate s.toList 200 "...".toList) = s
    rw [pyTruncate_eq_of_le s.toList "...".toList 200 (by omega)]
    rfl
  · intro h
    have hgt : 200 < s.toList.length := by omega
    refine ⟨?_, ?_, ?_, ?_⟩
    · intro i hm hq
      rw [hbody, pyTruncate_cut_at_space s.toList "...".toList 200 i
        (by rw [h197]; exact hm) (by omega) hgt, h197]
    · intro i hm hq
      rw [hbody, pyTruncate_low_space s.toList "...".toList 200 i
        (by rw [h197]; exact hm) (by omega) hgt, h197]
    · intro hm
      rw [hbody, pyTruncate_no_space s.toList "...".toList 200
        (by rw [h197]; exact hm) hgt, h197]
    · rcases hm : rfindSub (s.toList.take 197) [' '] with _ | i
      · exact ⟨_, by rw [hbody, pyTruncate_no_space s.toList "...".toList 200
          (by rw [h197]; exact hm) hgt]⟩
      · by_cases hq : 10 * i > 7 * 200
        · exact ⟨_, by rw [hbody, pyTruncate_cut_at_space s.toList "...".toList 200 i
            (by rw [h197]; exact hm) hq hgt]⟩
        · exact ⟨_, by rw [hbody, pyTruncate_low_space s.toList "...".toList 200 i
            (by rw [h197]; exact hm) hq hgt]⟩

/-- Witness for `truncate_snippet_contract`: a 250-character text is
truncated to at most 200 characters ending in the ellipsis, and a short
text is returned unchanged. -/
theorem truncate_snippet_contract_witness :
    (truncate_text (String.mk (List.replicate 250 'a')) 200 "...").length ≤ 200 ∧
    (∃ body, (truncate_text (String.mk (List.replicate 250 'a')) 200 "...").toList
      = body ++ "...".toList) ∧
    truncate_text "short" 200 "..." = "short" := by
  have hlong : 200 < (String.mk (List.replicate 250 'a')).length := by
    show 200 < (List.replicate 250 'a').length
    rw [List.length_replicate]
    omega
  have hshort : ("short" : String).length ≤ 200 := by decide
  exact ⟨(truncate_snippet_contract (String.mk (List.replicate 250 'a'))).1,
    ((truncate_snippet_contract (String.mk (List.replicate 250 'a'))).2.2 hlong).2.2.2,
    (truncate_snippet_contract "short").2.1 hshort⟩

/-! ### Citation building (`RAGService._build_citations`, rag_service.py) -/

/-- Dedup key used by `_build_citations`: `(source_file, page_number)`. -/
def chunkKey (c : RetrievedChunk) : String × Option Nat :=
  (c.metadata.source_file, c.metadata.page_number)

/-- URL of one citation: a fresh SAS link with a page anchor when the link
resolver succeeds, the stored URL otherwise (the try/except fallback of
`_build_citations`). -/
def citationUrl (sas : String → Except Unit String) (c : RetrievedChunk) : String :=
  match sas c.metadata.source_file with
  | Except.ok base =>
    match c.metadata.page_number with
    | some p => base ++ "#page=" ++ toString p ++ "&view=FitH,top"
    | none => base
  | Except.error _ => c.metadata.source_url

/-- The loop of `_build_citations`, with its `seen` set of keys. -/
def buildCitationsGo (sas : String → Except Unit String) :
    List RetrievedChunk → List (String × Option Nat) → List Citation
  | [], _ => []
  | c :: rest, seen =>
    if chunkKey c ∈ seen then buildCitationsGo sas rest seen
    else
      { source_file := c.metadata.source_file
        page_number := c.metadata.page_number
        source_url := citationUrl sas c
        snippet := truncate_text c.content 200 "..." }
        :: buildCitationsGo sas rest (chunkKey c :: seen)

/-- Embedding of `RAGService._build_citations`: the blob service's
`generate_sas_url` is the abstract link resolver `sas`. -/
def build_citations (sas : String → Except Unit String)
    (chunks : List RetrievedChunk) : List Citation :=
  buildCitationsGo sas chunks []

/-- First-seen key deduplication, written after the spec's words
("deduplicated and ordered by first appearance among the retrieved
evidence"), to be compared with what `_build_citations` computes. -/
def firstSeenDedup :
    List (String × Option Nat) → List (String × Option Nat) → List (String × Option Nat)
  | [], _ => []
  | k :: ks, seen =>
    if k ∈ seen then firstSeenDedup ks seen
    else k :: firstSeenDedup ks (k :: seen)

theorem firstSeenDedup_mem :
    ∀ (ks seen : List (String × Option Nat)) (k : String × Option Nat),
      k ∈ firstSeenDedup ks seen ↔ (k ∈ ks ∧ k ∉ seen) := by
  intro ks
  induction ks with
  | nil => intro seen k; simp [firstSeenDedup]
  | cons a ks ih =>
    intro seen k
    rw [firstSeenDedup]
    by_cases ha : a ∈ seen
    · rw [if_pos ha, ih]
      constructor
      · rintro ⟨hk, hns⟩; exact ⟨List.mem_cons_of_mem _ hk, hns⟩
      · rintro ⟨hk, hns⟩
        rcases List.mem_cons.mp hk with rfl | hk
        · exact absurd ha hns
        · exact ⟨hk, hns⟩
    · rw [if_neg ha]
      constructor
      · intro hk
        rcases List.mem_cons.mp hk with rfl | hk
        · exact ⟨List.mem_cons_self _ _, ha⟩
        · rcases (ih _ _).mp hk with ⟨h1, h2⟩
          exact ⟨List.mem_cons_of_mem _ h1, fun hs => h2 (List.mem_cons_of_mem _ hs)⟩
      · rintro ⟨hk, hns⟩
        rcases List.mem_cons.mp hk with rfl | hk
        · exact List.mem_cons_self _ _
        · by_cases hka : k = a
          · subst hka; exact List.mem_cons_self _ _
          · refine List.mem_cons_of_mem _ ((ih _ _).mpr ⟨hk, ?_⟩)
            intro hs
            rcases List.mem_cons.mp hs with h | h
            · exact hka h
            · exact hns h

theorem firstSeenDedup_nodup :
    ∀ (ks seen : List (String × Option Nat)), (firstSeenDedup ks seen).Nodup := by
  intro ks
  induction ks with
  | nil => intro seen; simp [firstSeenDedup]
  | cons a ks ih =>
    intro seen
    rw [firstSeenDedup]
    by_cases ha : a ∈ seen
    · rw [if_pos ha]; exact ih seen
    · rw [if_neg ha]
      refine List.nodup_cons.mpr ⟨?_, ih (a :: seen)⟩
      intro hmem
      exact ((firstSeenDedup_mem ks (a :: seen) a).mp hmem).2 (List.mem_cons_self _ _)

theorem buildCitationsGo_keys (sas : String → Except Unit String) :
    ∀ (l : List RetrievedChunk) (seen : List (String × Option Nat)),
      (buildCitationsGo sas l seen).map (fun c => (c.source_file, c.page_number))
        = firstSeenDedup (l.map chunkKey) seen := by
  intro l
  induction l with
  | nil => intro seen; simp [buildCitationsGo, firstSeenDedup]
  | cons c rest ih =>
    intro seen
    rw [buildCitationsGo, List.map_cons, firstSeenDedup]
    by_cases hc : chunkKey c ∈ seen
    · rw [if_pos hc, if_pos hc, ih]
    · rw [if_neg hc, if_neg hc, List.map_cons, ih]
      rfl

/-- C7: the citations built from an ordered result list are exactly one
per distinct `(source_document, page_number)` key, in order of the key's
first appearance; repeated keys contribute nothing.  Concretely, chunks
from `(doc_a, 1)`, `(doc_a, 1)`, `(doc_b, 2)` yield exactly the two
citations `(doc_a, 1)`, `(doc_b, 2)` in that order. -/
theorem citation_dedup_contract :
    (∀ (sas : String → Except Unit String) (chunks : List RetrievedChunk),
      (build_citations sas chunks).map (fun c => (c.source_file, c.page_number))
        = firstSeenDedup (chunks.map chunkKey) [] ∧
      ((build_citations sas chunks).map (fun c => (c.source_file, c.page_number))).Nodup ∧
      (∀ k, k ∈ (build_citations sas chunks).map (fun c => (c.source_file, c.page_number))
        ↔ k ∈ chunks.map chunkKey)) ∧
    (build_citations (fun f => Except.ok f)
        [⟨"x", 1, ⟨"doc_a", some 1, "c1", "u1"⟩⟩,
         ⟨"y", 1, ⟨"doc_a", some 1, "c2", "u2"⟩⟩,
         ⟨"z", 1, ⟨"doc_b", some 2, "c3", "u3"⟩⟩]).map
      (fun c => (c.source_file, c.page_number))
      = [("doc_a", some 1), ("doc_b", some 2)] := by
  constructor
  · intro sas chunks
    have hunfold : build_citations sas chunks = buildCitationsGo sas chunks [] := rfl
    refine ⟨buildCitationsGo_keys sas chunks [], ?_, ?_⟩
    · rw [hunfold, buildCitationsGo_keys sas chunks []]
      exact firstSeenDedup_nodup _ _
    · intro k
      rw [hunfold, buildCitationsGo_keys sas chunks [], firstSeenDedup_mem]
      simp
  · decide

/-! ### Document chunking (backend/app/services/chunk_service.py) -/

/-- The separator priority list of `_chunk_text`:
`['\\n\\n', '\\n', '. ', ' ']`. -/
def sepList : List (List Char) := [['\n', '\n'], ['\n'], ['.', ' '], [' ']]

/-- The separator search of `_chunk_text`: for each separator in priority
order take the last occurrence in the window and accept the first whose
index lies past the window midpoint.  Python's float guard
`last_sep > chunk_size * 0.5` is modelled as `2 * last_sep > chunk_size`,
which is exact for every integer `chunk_size`. -/
def findQualSep (chunk_size : Nat) (window : List Char) :
    List (List Char) → Option (Nat × Nat)
  | [] => none
  | sep :: rest =>
    match rfindSub window sep with
    | some idx =>
      if 2 * idx > chunk_size then some (idx, sep.length)
      else findQualSep chunk_size window rest
    | none => findQualSep chunk_size window rest

/-- Break point of the current window (`break_point` in `_chunk_text`):
`start + last_sep + len(sep)` for the accepted separator, else the hard
cut at `start + chunk_size`. -/
def breakPoint (chunk_size : Nat) (text : List Char) (start : Nat) : Nat :=
  match findQualSep chunk_size ((text.drop start).take chunk_size) sepList with
  | some (idx, seplen) => start + idx + seplen
  | none => start + chunk_size

/-- The next window start: `break_point - chunk_overlap`, with truncated
Nat subtraction modelling Python's clamp `if start < 0: start = 0`. -/
def nextWindowStart (chunk_size chunk_overlap : Nat) (text : List Char)
    (start : Nat) : Nat :=
  breakPoint chunk_size text start - chunk_overlap

/-- A candidate chunk is kept only when its stripped length reaches the
floor (`if len(chunk) >= self.min_chunk_size`). -/
def emitChunk (min_chunk_size : Nat) (c : List Char) : List (List Char) :=
  if min_chunk_size ≤ c.length then [c] else []

/-- The window loop of `_chunk_text`, modelled with explicit fuel
(`none` = fuel exhausted); `chunkTextAux` supplies fuel `text.length + 1`
and `chunk_progress_contract` shows it is never exhausted at the default
parameters. -/
def chunkGo (chunk_size chunk_overlap min_chunk_size : Nat) (text : List Char) :
    Nat → Nat → Option (List (List Char))
  | 0, _ => none
  | fuel + 1, start =>
    if text.length ≤ start + chunk_size then
      some (emitChunk min_chunk_size (pyStrip (text.drop start)))
    else if text.length ≤ nextWindowStart chunk_size chunk_overlap text start then
      some (emitChunk min_chunk_size
        (pyStrip ((text.drop start).take (breakPoint chunk_size text start - start))))
    else
      match chunkGo chunk_size chunk_overlap min_chunk_size text fuel
          (nextWindowStart chunk_size chunk_overlap text start) with
      | none => none
      | some tail =>
        some (emitChunk min_chunk_size
          (pyStrip ((text.drop start).take (breakPoint chunk_size text start - start)))
          ++ tail)

/-- Embedding of `ChunkService._chunk_text` on character lists: the early
return for empty or below-floor text, then the window loop. -/
def chunkTextAux (chunk_size chunk_overlap min_chunk_size : Nat)
    (text : List Char) : Option (List (List Char)) :=
  if text.length = 0 ∨ text.length < min_chunk_size then
    if text.length ≠ 0 ∧ (pyStrip text).length ≠ 0 then some [text] else some []
  else
    chunkGo chunk_size chunk_overlap min_chunk_size text (text.length + 1) 0

/-- Embedding of `_chunk_text` on strings. -/
def chunk_text (chunk_size chunk_overlap min_chunk_size : Nat)
    (text : String) : Option (List String) :=
  (chunkTextAux chunk_size chunk_overlap min_chunk_size text.toList).map
    (fun l => l.map String.mk)

theorem findQualSep_spec (cs : Nat) (window : List Char) :
    ∀ (seps : List (List Char)), (∀ s ∈ seps, s ≠ []) →
      ∀ i sl, findQualSep cs window seps = some (i, sl) →
        2 * i > cs ∧ 1 ≤ sl := by
  intro seps
  induction seps with
  | nil => intro _ i sl h; simp [findQualSep] at h
  | cons sep rest ih =>
    intro hne i sl h
    rw [findQualSep] at h
    rcases hm : rfindSub window sep with _ | idx
    · rw [hm] at h
      dsimp only at h
      exact ih (fun x hx => hne x (List.mem_cons_of_mem _ hx)) i sl h
    · rw [hm] at h
      dsimp only at h
      by_cases hq : 2 * idx > cs
      · rw [if_pos hq] at h
        injection h with h'
        have h1 : idx = i := congrArg Prod.fst h'
        have h2 : sep.length = sl := congrArg Prod.snd h'
        subst h1
        subst h2
        refine ⟨hq, ?_⟩
        have := hne sep (List.mem_cons_self _ _)
        exact List.length_pos.mpr this
      · rw [if_neg hq] at h
        exact ih (fun x hx => hne x (List.mem_cons_of_mem _ hx)) i sl h

theorem breakPoint_lb (text : List Char) (start : Nat) :
    start + 502 ≤ breakPoint 1000 text start := by
  rw [breakPoint]
  rcases hm : findQualSep 1000 ((text.drop start).take 1000) sepList with _ | p
  · dsimp only
    omega
  · obtain ⟨i, sl⟩ := p
    dsimp only
    have h := findQualSep_spec 1000 ((text.drop start).take 1000) sepList
      (by decide) i sl hm
    omega

theorem chunkGo_isSome (min_chunk_size : Nat) (text : List Char) :
    ∀ (fuel start : Nat), text.length - start < fuel →
      (chunkGo 1000 150 min_chunk_size text fuel start).isSome = true := by
  intro fuel
  induction fuel with
  | zero => intro start h; omega
  | succ fuel ih =>
    intro start h
    rw [chunkGo]
    by_cases hend : text.length ≤ start + 1000
    · rw [if_pos hend]; rfl
    · rw [if_neg hend]
      push_neg at hend
      have hbp := breakPoint_lb text start
      have hprog : start < nextWindowStart 1000 150 text start := by
        rw [nextWindowStart]; omega
      by_cases hstop : text.length ≤ nextWindowStart 1000 150 text start
      · rw [if_pos hstop]; rfl
      · rw [if_neg hstop]
        push_neg at hstop
        have hrec := ih (nextWindowStart 1000 150 text start) (by omega)
        rcases hx : chunkGo 1000 150 min_chunk_size text fuel
            (nextWindowStart 1000 150 text start) with _ | tail
        · rw [hx] at hrec; simp at hrec
        · rfl

theorem chunkTextAux_isSome (min_chunk_size : Nat) (text : List Char) :
    (chunkTextAux 1000 150 min_chunk_size text).isSome = true := by
  rw [chunkTextAux]
  by_cases h : text.length = 0 ∨ text.length < min_chunk_size
  · rw [if_pos h]
    by_cases h2 : text.length ≠ 0 ∧ (pyStrip text).length ≠ 0
    · rw [if_pos h2]; rfl
    · rw [if_neg h2]; rfl
  · rw [if_neg h]
    exact chunkGo_isSome min_chunk_size text (text.length + 1) 0 (by omega)

theorem emitChunk_min (min_chunk_size : Nat) (x c : List Char)
    (h : c ∈ emitChunk min_chunk_size x) : min_chunk_size ≤ c.length := by
  rw [emitChunk] at h
  by_cases hx : min_chunk_size ≤ x.length
  · rw [if_pos hx] at h
    rcases List.mem_singleton.mp h with rfl
    exact hx
  · rw [if_neg hx] at h
    simp at h

theorem chunkGo_min_length (cs ov mcs : Nat) (text : List Char) :
    ∀ (fuel start : Nat) (res : List (List Char)),
      chunkGo cs ov mcs text fuel start = some res →
      ∀ c ∈ res, mcs ≤ c.length := by
  intro fuel
  induction fuel with
  | zero => intro start res h; simp [chunkGo] at h
  | succ fuel ih =>
    intro start res h
    rw [chunkGo] at h
    by_cases hend : text.length ≤ start + cs
    · rw [if_pos hend] at h
      injection h with h'
      subst h'
      intro c hc
      exact emitChunk_min mcs _ c hc
    · rw [if_neg hend] at h
      by_cases hstop : text.length ≤ nextWindowStart cs ov text start
      · rw [if_pos hstop] at h
        injection h with h'
        subst h'
        intro c hc
        exact emitChunk_min mcs _ c hc
      · rw [if_neg hstop] at h
        rcases hx : chunkGo cs ov mcs text fuel (nextWindowStart cs ov text start)
            with _ | tail
        · rw [hx] at h; exact absurd h (by simp)
        · rw [hx] at h
          injection h with h'
          subst h'
          intro c hc
          rcases List.mem_append.mp hc with hc | hc
          · exact emitChunk_min mcs _ c hc
          · exact ih _ tail hx c hc

/-- C2 (amended): a chunk emitted by the window loop — i.e. from any input
of length at least `min_chunk_size` — always has length ≥
`min_chunk_size`; an input shorter than the floor yields at most one
chunk (the whole text, which may itself be below the floor). -/
theorem chunk_floor_contract :
    (∀ (cs ov mcs : Nat) (text : List Char) (res : List (List Char)),
      mcs ≤ text.length →
      chunkTextAux cs ov mcs text = some res →
      ∀ c ∈ res, mcs ≤ c.length) ∧
    (∀ (cs ov mcs : Nat) (text : List Char) (res : List (List Char)),
      text.length < mcs →
      chunkTextAux cs ov mcs text = some res →
      res.length ≤ 1) := by
  constructor
  · intro cs ov mcs text res hge h
    rw [chunkTextAux] at h
    by_cases hcond : text.length = 0 ∨ text.length < mcs
    · have hmcs : mcs = 0 := by omega
      intro c _
      simp [hmcs]
    · rw [if_neg hcond] at h
      exact chunkGo_min_length cs ov mcs text (text.length + 1) 0 res h
  · intro cs ov mcs text res hlt h
    rw [chunkTextAux, if_pos (Or.inr hlt)] at h
    by_cases h2 : text.length ≠ 0 ∧ (pyStrip text).length ≠ 0
    · rw [if_pos h2] at h
      injection h with h'
      subst h'
      simp
    · rw [if_neg h2] at h
      injection h with h'
      subst h'
      simp

/-- Witness for `chunk_floor_contract`: a 60-character input at the
default floor 50 yields one chunk of length 60 ≥ 50, and a 2-character
input yields exactly one (whole-text) chunk. -/
theorem chunk_floor_contract_witness :
    (∀ c ∈ [List.replicate 60 'a'], (50 : Nat) ≤ c.length) ∧
    ([[('a' : Char), 'b']] : List (List Char)).length ≤ 1 := by
  constructor
  · exact chunk_floor_contract.1 1000 150 50 (List.replicate 60 'a')
      [List.replicate 60 'a'] (by rw [List.length_replicate]; omega) (by decide)
  · exact chunk_floor_contract.2 1000 150 50 ['a', 'b'] [['a', 'b']]
      (by decide) (by decide)

/-- C2 counterexample: at the default floor 50 the non-blank 11-character
page text "Short text." is returned whole as a single below-floor chunk —
the short-text early return of `_chunk_text` does not discard it, so a
chunk shorter than `min_chunk_size` can reach the index. -/
theorem chunk_floor_counterexample :
    chunk_text 1000 150 50 "Short text." = some ["Short text."] ∧
    ("Short text." : String).length < 50 := by
  constructor
  · decide
  · decide

/-- C9: at the default parameters (`chunk_size` 1000, `chunk_overlap`
150), every window iteration that continues strictly advances the window
start (any accepted separator lies past the midpoint, so the break point
is at least `start + 502` and the next start at least `start + 352`),
hence `_chunk_text` terminates on every finite input — its fuel is never
exhausted — and two consecutive windows share at most
`chunk_overlap = 150` characters. -/
theorem chunk_progress_contract :
    (∀ (min_chunk_size : Nat) (text : String),
      (chunk_text 1000 150 min_chunk_size text).isSome = true) ∧
    (∀ (text : List Char) (start : Nat), start + 1000 < text.length →
      start < nextWindowStart 1000 150 text start ∧
      breakPoint 1000 text start - nextWindowStart 1000 150 text start ≤ 150) := by
  constructor
  · intro mcs text
    have h := chunkTextAux_isSome mcs text.toList
    rcases hx : chunkTextAux 1000 150 mcs text.toList with _ | res
    · rw [hx] at h; simp at h
    · have hdef : chunk_text 1000 150 mcs text
          = (chunkTextAux 1000 150 mcs text.toList).map (fun l => l.map String.mk) := rfl
      rw [hdef, hx]
      rfl
  · intro text start h
    have hbp := breakPoint_lb text start
    constructor
    · rw [nextWindowStart]; omega
    · rw [nextWindowStart]; omega

/-- Witness for `chunk_progress_contract`: on a 1002-character input the
window at start 0 continues and strictly advances. -/
theorem chunk_progress_contract_witness :
    (0 + 1000 < (List.replicate 1002 'a').length) ∧
    0 < nextWindowStart 1000 150 (List.replicate 1002 'a') 0 := by
  have h : 0 + 1000 < (List.replicate 1002 'a').length := by
    rw [List.length_replicate]; omega
  exact ⟨h, (chunk_progress_contract.2 (List.replicate 1002 'a') 0 h).1⟩

/-! ### RAG orchestration (backend/app/services/rag_service.py) -/

/-- The tuning settings consumed by `answer_question` (`settings.top_k`,
`settings.score_threshold`, `settings.strict_grounding` from
core/config.py; defaults 5, 0.3, True). -/
structure RagSettings where
  top_k : Nat
  score_threshold : ℚ
  strict_grounding : Bool

/-- External collaborators of `RAGService`: the chat-completion call used
by the query rewriter, the search service, the chat-completion call used
by the answer generator, and the blob service\x27s SAS-URL generator.  Each
models a Python call that either returns a value or raises. -/
structure RagEnv where
  settings : RagSettings
  chatRewrite : String → Except Unit String
  search : String → Nat → Except Unit (List RetrievedChunk)
  generate : List (String × String) → Except Unit String
  sas : String → Except Unit String

/-- Transcript of the last 6 history messages, formatted as
`_rewrite_query_with_context` builds `history_text`. -/
def historyText (history : List ConversationMessage) : String :=
  ((history.drop (history.length - 6)).map
    (fun m => (if m.role = "user" then "User: " else "Assistant: ")
      ++ m.content ++ "\n")).foldl (· ++ ·) ""

/-- Embedding of `_rewrite_query_with_context`: build the rewrite prompt
(`QUERY_REWRITE_PROMPT` with history and question substituted), call the
chat model, strip the reply; on any failure fall back to the original
question. -/
def rewriteQueryWithContext (chatRewrite : String → Except Unit String)
    (question : String) (history : List ConversationMessage) : String :=
  let prompt :=
    "Given the conversation history below, rewrite the user\x27s latest question to be a standalone question that includes all necessary context. If the question references something from the conversation (like \"it\", \"that\", \"this\", \"the above\"), replace those references with the actual topic being discussed.\n\nConversation History:\n"
    ++ historyText history
    ++ "\n\nLatest Question: " ++ question
    ++ "\n\nRewritten standalone question (output ONLY the rewritten question, nothing else):"
  match chatRewrite prompt with
  | Except.ok r => String.mk (pyStrip r.toList)
  | Except.error _ => question

/-- Python truthiness of `chunk.metadata.page_number` in
`_format_sources_for_prompt`: both `None` and page `0` print as N/A. -/
def pageInfo (p : Option Nat) : String :=
  match p with
  | some n => if n = 0 then "Page: N/A" else "Page: " ++ toString n
  | none => "Page: N/A"

/-- Embedding of `_format_sources_for_prompt`. -/
def formatSourcesForPrompt (chunks : List RetrievedChunk) : String :=
  String.intercalate "\n---\n"
    ((chunks.enumFrom 1).map (fun p =>
      "[Source " ++ toString p.1 ++ "]\nDocument: " ++ p.2.metadata.source_file
      ++ "\n" ++ pageInfo p.2.metadata.page_number
      ++ "\nContent: " ++ p.2.content ++ "\n"))

/-- The fixed part of `SYSTEM_PROMPT` before the sources. -/
def SYSTEM_PROMPT_PREFIX : String :=
  "You are a helpful assistant that answers questions based ONLY on the provided source documents.\n\nIMPORTANT RULES:\n1. Answer ONLY using information from the provided sources below.\n2. If the sources don\x27t contain relevant information to answer the question, say \"I don\x27t have enough information in the provided documents to answer this question.\"\n3. Always cite your sources by referencing the document name and page number.\n4. Be concise and accurate.\n5. Do not make up information or use knowledge outside the provided sources.\n\nSOURCES:\n"

/-- The fixed part of `SYSTEM_PROMPT` after the sources. -/
def SYSTEM_PROMPT_SUFFIX : String :=
  "\n\nAnswer the user\x27s question based solely on the sources above."

/-- Embedding of `_generate_response`: system prompt embedding the
formatted sources, then up to the last 10 history messages, then the user
question; the chat call either returns the answer text or raises. -/
def generateResponse (generate : List (String × String) → Except Unit String)
    (question : String) (chunks : List RetrievedChunk)
    (history : Option (List ConversationMessage)) : Except Unit String :=
  let system_message :=
    SYSTEM_PROMPT_PREFIX ++ formatSourcesForPrompt chunks ++ SYSTEM_PROMPT_SUFFIX
  let histMsgs :=
    match history with
    | some hs => (hs.drop (hs.length - min hs.length 10)).map
        (fun m => (m.role, m.content))
    | none => []
  generate ((("system", system_message) :: histMsgs) ++ [("user", question)])

/-- Python\x27s `top_k or settings.top_k`: `None` and `0` both fall back to
the configured default. -/
def effectiveTopK (s : RagSettings) (top_k : Option Nat) : Nat :=
  match top_k with
  | some k => if k = 0 then s.top_k else k
  | none => s.top_k

/-- The query string sent to search: rewritten with conversation context
when a nonempty history is present, the question itself otherwise. -/
def searchQueryOf (chatRewrite : String → Except Unit String)
    (question : String) (history : Option (List ConversationMessage)) : String :=
  match history with
  | some hs =>
    if hs.length > 0 then rewriteQueryWithContext chatRewrite question hs
    else question
  | none => question

/-- Embedding of `RAGService.answer_question`. -/
def answer_question (env : RagEnv) (question : String) (top_k : Option Nat)
    (conversation_history : Option (List ConversationMessage)) : ChatResponse :=
  match env.search (searchQueryOf env.chatRewrite question conversation_history)
      (effectiveTopK env.settings top_k) with
  | Except.error _ =>
    { answer := "An error occurred while searching the documents. Please try again."
      citations := []
      out_of_context := true
      retrieved_chunks_count := 0 }
  | Except.ok chunks =>
    let gating_result := check_retrieval_quality chunks env.settings.score_threshold
      env.settings.strict_grounding
    if gating_result.passed = false then
      { answer := OUT_OF_CONTEXT_MESSAGE
        citations := []
        out_of_context := true
        retrieved_chunks_count := gating_result.num_chunks }
    else
      match generateResponse env.generate question chunks conversation_history with
      | Except.error _ =>
        { answer := "An error occurred while generating the response. Please try again."
          citations := []
          out_of_context := false
          retrieved_chunks_count := chunks.length }
      | Except.ok answer =>
        { answer := answer
          citations := build_citations env.sas chunks
          out_of_context := false
          retrieved_chunks_count := chunks.length }

/-- C1: whenever the retrieval gate fails, `answer_question` returns the
fixed `OUT_OF_CONTEXT_MESSAGE` verbatim with an empty citation list,
`out_of_context = true`, and `retrieved_chunks_count` equal to the
evidence count the gate saw; the response is independent of the generator
— the chat-completion call of `_generate_response` is never invoked on
that path. -/
theorem gate_failure_refusal (env : RagEnv) (question : String)
    (top_k : Option Nat) (history : Option (List ConversationMessage))
    (chunks : List RetrievedChunk)
    (hsearch : env.search (searchQueryOf env.chatRewrite question history)
      (effectiveTopK env.settings top_k) = Except.ok chunks)
    (hfail : (check_retrieval_quality chunks env.settings.score_threshold
      env.settings.strict_grounding).passed = false) :
    answer_question env question top_k history =
      { answer := OUT_OF_CONTEXT_MESSAGE
        citations := []
        out_of_context := true
        retrieved_chunks_count := (check_retrieval_quality chunks
          env.settings.score_threshold env.settings.strict_grounding).num_chunks } ∧
    ∀ gen, answer_question { env with generate := gen } question top_k history
      = answer_question env question top_k history := by
  have hmain : answer_question env question top_k history =
      { answer := OUT_OF_CONTEXT_MESSAGE
        citations := []
        out_of_context := true
        retrieved_chunks_count := (check_retrieval_quality chunks
          env.settings.score_threshold env.settings.strict_grounding).num_chunks } := by
    simp only [answer_question, hsearch]
    rw [if_pos hfail]
  refine ⟨hmain, ?_⟩
  intro gen
  have h2 : answer_question { env with generate := gen } question top_k history =
      { answer := OUT_OF_CONTEXT_MESSAGE
        citations := []
        out_of_context := true
        retrieved_chunks_count := (check_retrieval_quality chunks
          env.settings.score_threshold env.settings.strict_grounding).num_chunks } := by
    simp only [answer_question]
    rw [show ({ env with generate := gen } : RagEnv).search
        (searchQueryOf ({ env with generate := gen } : RagEnv).chatRewrite question history)
        (effectiveTopK ({ env with generate := gen } : RagEnv).settings top_k)
      = Except.ok chunks from hsearch]
    dsimp only
    rw [if_pos hfail]
  rw [h2, hmain]

/-- Witness for `gate_failure_refusal`: an environment whose search
returns no chunks makes the gate fail and `answer_question` return the
fixed refusal with zero citations and count 0. -/
theorem gate_failure_refusal_witness :
    answer_question
      { settings := ⟨5, (3 : ℚ)/10, true⟩
        chatRewrite := fun _ => Except.error ()
        search := fun _ _ => Except.ok []
        generate := fun _ => Except.ok "ignored"
        sas := fun _ => Except.error () } "q" none none =
      { answer := OUT_OF_CONTEXT_MESSAGE
        citations := []
        out_of_context := true
        retrieved_chunks_count := 0 } := by
  exact (gate_failure_refusal
    { settings := ⟨5, (3 : ℚ)/10, true⟩
      chatRewrite := fun _ => Except.error ()
      search := fun _ _ => Except.ok []
      generate := fun _ => Except.ok "ignored"
      sas := fun _ => Except.error () } "q" none none [] rfl rfl).1

/-- C10: a response of `answer_question` with `out_of_context = true`
always has an empty citation list, and a nonempty citation list occurs
only on the fully successful path: `out_of_context = false`, the gate
passed, and the citations are built from the retrieved evidence
(search-failure, gate-failure and generation-failure responses all carry
zero citations). -/
theorem out_of_context_no_citations (env : RagEnv) (question : String)
    (top_k : Option Nat) (history : Option (List ConversationMessage)) :
    ((answer_question env question top_k history).out_of_context = true →
      (answer_question env question top_k history).citations = []) ∧
    ((answer_question env question top_k history).citations ≠ [] →
      (answer_question env question top_k history).out_of_context = false ∧
      ∃ chunks, env.search (searchQueryOf env.chatRewrite question history)
          (effectiveTopK env.settings top_k) = Except.ok chunks ∧
        (check_retrieval_quality chunks env.settings.score_threshold
          env.settings.strict_grounding).passed = true ∧
        (answer_question env question top_k history).citations
          = build_citations env.sas chunks) := by
  rcases hs : env.search (searchQueryOf env.chatRewrite question history)
      (effectiveTopK env.settings top_k) with e | chunks
  · constructor
    · intro _
      simp [answer_question, hs]
    · intro hne
      exfalso
      exact hne (by simp [answer_question, hs])
  · by_cases hg : (check_retrieval_quality chunks env.settings.score_threshold
        env.settings.strict_grounding).passed = false
    · constructor
      · intro _
        simp [answer_question, hs, hg]
      · intro hne
        exfalso
        exact hne (by simp [answer_question, hs, hg])
    · have hg' : (check_retrieval_quality chunks env.settings.score_threshold
          env.settings.strict_grounding).passed = true := by
        cases hb : (check_retrieval_quality chunks env.settings.score_threshold
            env.settings.strict_grounding).passed
        · exact absurd hb hg
        · rfl
      rcases hgen : generateResponse env.generate question chunks history with e | ans
      · constructor
        · intro _
          simp [answer_question, hs, hg, hgen]
        · intro hne
          exfalso
          exact hne (by simp [answer_question, hs, hg, hgen])
      · constructor
        · intro hoc
          exfalso
          have : (answer_question env question top_k history).out_of_context = false := by
            simp [answer_question, hs, hg, hgen]
          rw [this] at hoc
          exact Bool.false_ne_true hoc
        · intro _
          refine ⟨by simp [answer_question, hs, hg, hgen], chunks, rfl, hg', ?_⟩
          simp [answer_question, hs, hg, hgen]

/-- Witness for `out_of_context_no_citations`: a successful run with one
retrieved chunk produces a nonempty citation list and
`out_of_context = false`. -/
theorem out_of_context_no_citations_witness :
    (answer_question
      { settings := ⟨5, (0 : ℚ), true⟩
        chatRewrite := fun _ => Except.error ()
        search := fun _ _ => Except.ok
          [⟨"content words here", (4 : ℚ), ⟨"doc.pdf", some 2, "cid", "u"⟩⟩]
        generate := fun _ => Except.ok "The answer."
        sas := fun f => Except.ok ("https://fresh/" ++ f) } "q" none none).citations ≠ [] ∧
    (answer_question
      { settings := ⟨5, (0 : ℚ), true⟩
        chatRewrite := fun _ => Except.error ()
        search := fun _ _ => Except.ok
          [⟨"content words here", (4 : ℚ), ⟨"doc.pdf", some 2, "cid", "u"⟩⟩]
        generate := fun _ => Except.ok "The answer."
        sas := fun f => Except.ok ("https://fresh/" ++ f) } "q" none none).out_of_context
      = false := by
  have hne : (answer_question
      { settings := ⟨5, (0 : ℚ), true⟩
        chatRewrite := fun _ => Except.error ()
        search := fun _ _ => Except.ok
          [⟨"content words here", (4 : ℚ), ⟨"doc.pdf", some 2, "cid", "u"⟩⟩]
        generate := fun _ => Except.ok "The answer."
        sas := fun f => Except.ok ("https://fresh/" ++ f) } "q" none none).citations ≠ [] := by
    decide
  exact ⟨hne, ((out_of_context_no_citations
    { settings := ⟨5, (0 : ℚ), true⟩
      chatRewrite := fun _ => Except.error ()
      search := fun _ _ => Except.ok
        [⟨"content words here", (4 : ℚ), ⟨"doc.pdf", some 2, "cid", "u"⟩⟩]
      generate := fun _ => Except.ok "The answer."
      sas := fun f => Except.ok ("https://fresh/" ++ f) } "q" none none).2 hne).1⟩

/-! ### Index upsert (backend/app/services/search_service.py) -/

/-- A chunk of text with associated metadata (`DocumentChunk` in
chunk_service.py). -/
structure DocumentChunk where
  chunk_id : String
  content : String
  source_file : String
  page_number : Nat
  source_url : String
  chunk_index : Nat
  deriving DecidableEq, Repr

/-- One record of the documents payload built by `index_chunks`. -/
structure IndexDoc where
  id : String
  content : String
  contentVector : List ℚ
  source_file : String
  page_number : Nat
  source_url : String
  chunk_id : String
  deriving DecidableEq, Repr

/-- Per-item result returned by the search client\x27s `upload_documents`. -/
structure UploadResult where
  succeeded : Bool
  key : String
  error_message : String
  deriving DecidableEq, Repr

/-- Statistics about an indexing operation (`IndexStats` in
search_service.py). -/
structure IndexStats where
  num_documents : Nat
  num_succeeded : Nat
  num_failed : Nat
  errors : List String
  deriving DecidableEq, Repr

/-- Fuel-indexed batch splitter (the slicing loop
`for i in range(0, len(documents), batch_size)`). -/
def batchesOfGo (n : Nat) : Nat → List α → List (List α)
  | _, [] => []
  | 0, _ :: _ => []
  | fuel + 1, x :: xs => (x :: xs).take n :: batchesOfGo n fuel ((x :: xs).drop n)

/-- Consecutive batches of `n` records; fuel `l.length` suffices for any
positive `n`. -/
def batchesOf (n : Nat) (l : List α) : List (List α) :=
  batchesOfGo n l.length l

/-- The document payload for one chunk (loop body of `index_chunks`).
The md5 `chunk_id` is carried opaquely from `DocumentChunk.chunk_id`. -/
def mkIndexDoc (p : DocumentChunk × List ℚ) : IndexDoc :=
  { id := p.1.chunk_id
    content := p.1.content
    contentVector := p.2
    source_file := p.1.source_file
    page_number := p.1.page_number
    source_url := p.1.source_url
    chunk_id := p.1.chunk_id }

/-- Per-item accounting of one upload result (`for r in result` in
`index_chunks`). -/
def uploadItemStep (a : Nat × Nat × List String) (r : UploadResult) :
    Nat × Nat × List String :=
  if r.succeeded then (a.1 + 1, a.2.1, a.2.2)
  else (a.1, a.2.1 + 1,
    a.2.2 ++ ["Failed to index " ++ r.key ++ ": " ++ r.error_message])

/-- One batch of `index_chunks`: per-item accounting when the upload call
returns, whole-batch failure accounting when it raises (the error string
models the exception type name). -/
def processBatch (upload : List IndexDoc → Except String (List UploadResult))
    (acc : Nat × Nat × List String) (batch : List IndexDoc) :
    Nat × Nat × List String :=
  match upload batch with
  | Except.ok results => results.foldl uploadItemStep acc
  | Except.error e =>
    (acc.1, acc.2.1 + batch.length, acc.2.2 ++ ["Batch upload error: " ++ e])

/-- Embedding of `SearchService.index_chunks`: raises on a chunk/embedding
count mismatch, then uploads in batches of 100, accumulating per-item and
per-batch results across all batches. -/
def index_chunks (upload : List IndexDoc → Except String (List UploadResult))
    (chunks : List DocumentChunk) (embeddings : List (List ℚ)) :
    Except String IndexStats :=
  if chunks.length ≠ embeddings.length then
    Except.error "Number of chunks must match number of embeddings"
  else
    let documents := (chunks.zip embeddings).map mkIndexDoc
    let res := (batchesOf 100 documents).foldl (processBatch upload) (0, 0, [])
    Except.ok
      { num_documents := chunks.length
        num_succeeded := res.1
        num_failed := res.2.1
        errors := res.2.2 }

theorem uploadItemStep_foldl_count (results : List UploadResult) :
    ∀ acc : Nat × Nat × List String,
      (results.foldl uploadItemStep acc).1 + (results.foldl uploadItemStep acc).2.1
        = acc.1 + acc.2.1 + results.length := by
  induction results with
  | nil => intro acc; simp
  | cons r rs ih =>
    intro acc
    rw [List.foldl_cons, ih]
    rw [uploadItemStep]
    by_cases hr : r.succeeded = true
    · rw [if_pos hr]
      simp only [List.length_cons]
      omega
    · rw [if_neg hr]
      simp only [List.length_cons]
      omega

theorem processBatch_count
    (upload : List IndexDoc → Except String (List UploadResult))
    (hwb : ∀ b r, upload b = Except.ok r → r.length = b.length)
    (acc : Nat × Nat × List String) (batch : List IndexDoc) :
    (processBatch upload acc batch).1 + (processBatch upload acc batch).2.1
      = acc.1 + acc.2.1 + batch.length := by
  rw [processBatch]
  rcases hu : upload batch with e | results
  · dsimp only
    omega
  · dsimp only
    rw [uploadItemStep_foldl_count results acc, hwb batch results hu]

theorem foldl_processBatch_count
    (upload : List IndexDoc → Except String (List UploadResult))
    (hwb : ∀ b r, upload b = Except.ok r → r.length = b.length) :
    ∀ (batches : List (List IndexDoc)) (acc : Nat × Nat × List String),
      ((batches.foldl (processBatch upload) acc).1
        + (batches.foldl (processBatch upload) acc).2.1)
        = acc.1 + acc.2.1 + (batches.map List.length).sum := by
  intro batches
  induction batches with
  | nil => intro acc; simp
  | cons b bs ih =>
    intro acc
    rw [List.foldl_cons, ih, List.map_cons, List.sum_cons]
    have h := processBatch_count upload hwb acc b
    omega

theorem batchesOfGo_length_sum {α : Type} (n : Nat) (hn : n ≠ 0) :
    ∀ (fuel : Nat) (l : List α), l.length ≤ fuel →
      ((batchesOfGo n fuel l).map List.length).sum = l.length := by
  intro fuel
  induction fuel with
  | zero =>
    intro l hl
    have : l = [] := List.length_eq_zero.mp (by omega)
    subst this
    rfl
  | succ fuel ih =>
    intro l hl
    rcases l with _ | ⟨x, xs⟩
    · rfl
    · rw [batchesOfGo, List.map_cons, List.sum_cons]
      have hrec := ih ((x :: xs).drop n) (by
        rw [List.length_drop]
        simp only [List.length_cons] at hl ⊢
        omega)
      rw [hrec, List.length_take, List.length_drop]
      rcases Nat.le_total n (x :: xs).length with h | h
      · rw [Nat.min_eq_left h]
        omega
      · rw [Nat.min_eq_right h]
        omega

/-- C5: `index_chunks` raises on a chunk/embedding count mismatch;
otherwise it processes the zipped records in batches of 100 and accounts
every record exactly once — a batch failure does not abort the remaining
batches (for an upload that returns one result per record, succeeded +
failed = total).  Concretely, upserting 150 chunks where the second batch
fails entirely reports `succeeded = 100, failed = 50`, with both batches
attempted. -/
theorem upsert_batching_contract :
    (∀ (upload : List IndexDoc → Except String (List UploadResult))
        (chunks : List DocumentChunk) (embeddings : List (List ℚ)),
      chunks.length ≠ embeddings.length →
      index_chunks upload chunks embeddings
        = Except.error "Number of chunks must match number of embeddings") ∧
    (∀ (upload : List IndexDoc → Except String (List UploadResult))
        (chunks : List DocumentChunk) (embeddings : List (List ℚ))
        (stats : IndexStats),
      (∀ b r, upload b = Except.ok r → r.length = b.length) →
      index_chunks upload chunks embeddings = Except.ok stats →
      stats.num_documents = chunks.length ∧
      stats.num_succeeded + stats.num_failed = min chunks.length embeddings.length) ∧
    (index_chunks
      (fun b => if b.length = 100
        then Except.ok (b.map (fun d => ⟨true, d.id, ""⟩))
        else Except.error "HttpResponseError")
      (List.replicate 150 ⟨"c", "t", "f.pdf", 1, "u", 0⟩)
      (List.replicate 150 []) =
      Except.ok { num_documents := 150, num_succeeded := 100, num_failed := 50,
                  errors := ["Batch upload error: HttpResponseError"] }) := by
  refine ⟨?_, ?_, ?_⟩
  · intro upload chunks embeddings hne
    rw [index_chunks, if_pos hne]
  · intro upload chunks embeddings stats hwb hok
    by_cases hlen : chunks.length = embeddings.length
    · rw [index_chunks, if_neg (fun hne => hne hlen)] at hok
      dsimp only at hok
      injection hok with hstats
      subst hstats
      refine ⟨rfl, ?_⟩
      dsimp only
      have hbl : ((batchesOf 100 ((chunks.zip embeddings).map mkIndexDoc)).map
            List.length).sum = ((chunks.zip embeddings).map mkIndexDoc).length :=
        batchesOfGo_length_sum 100 (by omega) _ _ (le_refl _)
      have hsum := foldl_processBatch_count upload hwb
        (batchesOf 100 ((chunks.zip embeddings).map mkIndexDoc)) (0, 0, [])
      rw [hbl] at hsum
      rw [hsum]
      simp [List.length_zip]
    · rw [index_chunks, if_pos hlen] at hok
      exact absurd hok (by simp)
  · decide

/-- Witness for `upsert_batching_contract`: a mismatched call errors; a
well-behaved 150-record upsert accounts all 150 records. -/
theorem upsert_batching_contract_witness :
    index_chunks (fun b => Except.ok (b.map (fun d => ⟨true, d.id, ""⟩)))
      ([] : List DocumentChunk) [([] : List ℚ)]
      = Except.error "Number of chunks must match number of embeddings" ∧
    ({ num_documents := 150, num_succeeded := 150, num_failed := 0,
       errors := [] } : IndexStats).num_succeeded +
      ({ num_documents := 150, num_succeeded := 150, num_failed := 0,
         errors := [] } : IndexStats).num_failed =
      min (List.replicate 150
          (⟨"c", "t", "f.pdf", 1, "u", 0⟩ : DocumentChunk)).length
        (List.replicate 150 ([] : List ℚ)).length := by
  constructor
  · exact upsert_batching_contract.1
      (fun b => Except.ok (b.map (fun d => ⟨true, d.id, ""⟩))) [] [[]] (by decide)
  · exact (upsert_batching_contract.2.1
      (fun b => Except.ok (b.map (fun d => ⟨true, d.id, ""⟩)))
      (List.replicate 150 ⟨"c", "t", "f.pdf", 1, "u", 0⟩)
      (List.replicate 150 [])
      { num_documents := 150, num_succeeded := 150, num_failed := 0, errors := [] }
      (by
        intro b r h
        injection h with h2
        rw [← h2, List.length_map])
      (by decide)).2

/-- The `details` lines the ingest route copies from a batch result:
`stats.errors[:5]`, each prefixed `"Index error: "`. -/
def ingestDetailErrors (stats : IndexStats) : List String :=
  (stats.errors.take 5).map (fun e => "Index error: " ++ e)

/-- C6 (amended): `index_chunks` returns the full, unbounded error list;
the bound on response size is applied by the ingest route, which copies at
most five error strings into the response details. -/
theorem upsert_error_cap_contract (stats : IndexStats) :
    (ingestDetailErrors stats).length ≤ 5 := by
  rw [ingestDetailErrors, List.length_map, List.length_take]
  exact Nat.min_le_left _ _

/-- C6 counterexample: six per-item failures produce an `IndexStats` whose
`errors` list has six entries — the `IndexBatchResult` returned by
`index_chunks` itself is not capped at 5 error strings. -/
theorem upsert_error_cap_counterexample :
    index_chunks (fun b => Except.ok (b.map (fun d => ⟨false, d.id, "boom"⟩)))
      (List.replicate 6 ⟨"c", "t", "f.pdf", 1, "u", 0⟩)
      (List.replicate 6 []) =
      Except.ok { num_documents := 6, num_succeeded := 0, num_failed := 6,
                  errors := List.replicate 6 "Failed to index c: boom" } ∧
    5 < (List.replicate 6 "Failed to index c: boom").length := by
  constructor
  · decide
  · decide

/-! ### Ingestion run (backend/app/api/routes_ingest.py) -/

/-- Extracted content of one PDF page (`PageContent` in pdf_service.py). -/
structure PageContent where
  page_number : Nat
  text : String
  has_text : Bool
  deriving DecidableEq, Repr

/-- A fully extracted PDF document (`ExtractedDocument` in
pdf_service.py). -/
structure ExtractedDocument where
  filename : String
  source_url : String
  pages : List PageContent
  total_pages : Nat
  pages_with_text : Nat
  deriving DecidableEq, Repr

/-- A PDF downloaded from blob storage; the raw bytes are opaque to the
pipeline, only name and URL flow onward. -/
structure BlobDoc where
  filename : String
  source_url : String
  deriving DecidableEq, Repr

/-- The deterministic id string of `_generate_chunk_id`
(`f"{filename}:p{page}:c{idx}:{content[:50]}"`).  The external md5 hex
digest is modelled as the identity on this id string; no claim depends on
the digest value. -/
def generate_chunk_id (filename : String) (page_number chunk_index : Nat)
    (content : String) : String :=
  filename ++ ":p" ++ toString page_number ++ ":c" ++ toString chunk_index
    ++ ":" ++ String.mk (content.toList.take 50)

/-- The chunker at the default `ChunkService()` parameters used by the
ingest route; `chunkTextAux_isSome` shows the fuel cannot run out at these
parameters, so the `getD []` default is never taken. -/
def chunkTextDefault (min_chunk_size : Nat) (text : String) : List String :=
  ((chunkTextAux 1000 150 min_chunk_size text.toList).getD []).map String.mk

/-- Embedding of `ChunkService.chunk_document` at the default parameters
(chunk_size 1000, overlap 150, floor 50): pages without text are skipped,
each page\x27s chunks are numbered from 0. -/
def chunk_document (doc : ExtractedDocument) : List DocumentChunk :=
  doc.pages.foldl (fun acc page =>
    if page.has_text = false then acc
    else acc ++ ((chunkTextDefault 50 page.text).enum.map (fun p =>
      { chunk_id := generate_chunk_id doc.filename page.page_number p.1 p.2
        content := p.2
        source_file := doc.filename
        page_number := page.page_number
        source_url := doc.source_url
        chunk_index := p.1 }))) []

/-- External collaborators of the ingest route: index management, blob
download, PDF extraction, the embedding service, and the search client\x27s
`upload_documents` (consumed through `index_chunks`). -/
structure IngestEnv where
  deleteIndex : Except Unit Bool
  createIndex : Except Unit Bool
  download : Except Unit (List BlobDoc)
  extract : BlobDoc → Except Unit ExtractedDocument
  embedTexts : List String → Except Unit (List (List ℚ))
  upload : List IndexDoc → Except String (List UploadResult)

/-- The per-document loop of `ingest_documents`: extract each PDF, skip
documents without extractable text (counted as failures), chunk the rest;
an extraction error is recorded and counted without aborting the run.
Returns the accumulated chunks, the failure count and the detail lines. -/
def collectChunks (extract : BlobDoc → Except Unit ExtractedDocument)
    (docs : List BlobDoc) : List DocumentChunk × Nat × List String :=
  docs.foldl (fun acc doc =>
    match extract doc with
    | Except.error _ =>
      (acc.1, acc.2.1 + 1,
        acc.2.2 ++ ["Failed to process \x27" ++ doc.filename ++ "\x27: Exception"])
    | Except.ok ext =>
      if ext.pages_with_text > 0 then
        (acc.1 ++ chunk_document ext, acc.2.1,
          acc.2.2 ++ ["Processed \x27" ++ doc.filename ++ "\x27: "
            ++ toString (chunk_document ext).length ++ " chunks"])
      else
        (acc.1, acc.2.1 + 1,
          acc.2.2 ++ ["Skipped \x27" ++ doc.filename ++ "\x27 - no extractable text"]))
    ([], 0, [])

/-- Embedding of the `/api/ingest` route (`ingest_documents` in
routes_ingest.py).  `Except.error ()` is the HTTP-500 path: an exception
from index creation, blob download, embedding, or the chunk/embedding
count check escaping to the outer handler. -/
def ingest_documents (env : IngestEnv) (force_reindex : Bool) :
    Except Unit IngestResponse :=
  let d1 : List String :=
    if force_reindex then
      match env.deleteIndex with
      | Except.ok _ => ["Deleted existing search index"]
      | Except.error _ => ["No existing index to delete"]
    else []
  match env.createIndex with
  | Except.error _ => Except.error ()
  | Except.ok _ =>
    let d2 := d1 ++ ["Search index created/updated"]
    match env.download with
    | Except.error _ => Except.error ()
    | Except.ok documents =>
      let d3 := d2 ++ ["Downloaded " ++ toString documents.length
        ++ " PDFs from blob storage"]
      if documents.length = 0 then
        Except.ok
          { success := true
            num_pdfs_processed := 0
            num_chunks_indexed := 0
            num_failures := 0
            message := "No PDFs found in blob storage container"
            details := d3 }
      else
        match collectChunks env.extract documents with
        | (all_chunks, num_failures, d4) =>
          if all_chunks.length = 0 then
            Except.ok
              { success := true
                num_pdfs_processed := documents.length
                num_chunks_indexed := 0
                num_failures := num_failures
                message := "No text chunks extracted from PDFs"
                details := d3 ++ d4 }
          else
            let d5 := d3 ++ d4 ++ ["Generating embeddings for "
              ++ toString all_chunks.length ++ " chunks..."]
            match env.embedTexts (all_chunks.map DocumentChunk.content) with
            | Except.error _ => Except.error ()
            | Except.ok embeddings =>
              let d6 := d5 ++ ["Generated " ++ toString embeddings.length
                ++ " embeddings"]
              match index_chunks env.upload all_chunks embeddings with
              | Except.error _ => Except.error ()
              | Except.ok stats =>
                Except.ok
                  { success := decide (stats.num_succeeded > 0)
                    num_pdfs_processed := documents.length
                    num_chunks_indexed := stats.num_succeeded
                    num_failures := num_failures + stats.num_failed
                    message :=
                      if stats.num_succeeded > 0 then
                        "Successfully ingested " ++ toString documents.length
                        ++ " PDFs with " ++ toString stats.num_succeeded ++ " chunks"
                      else "Ingestion completed with errors"
                    details := d6 ++ ["Indexed " ++ toString stats.num_succeeded
                      ++ " chunks, " ++ toString stats.num_failed ++ " failures"]
                      ++ ingestDetailErrors stats }

/-- C4 (amended): when an ingestion run reaches the indexing stage — at
least one chunk was extracted — the response\x27s `success` is true iff at
least one chunk was indexed; the early returns for an empty corpus and
for zero extracted chunks report `success = true` with
`num_chunks_indexed = 0`. -/
theorem ingest_success_contract (env : IngestEnv) (force : Bool)
    (resp : IngestResponse) (docs : List BlobDoc)
    (hdl : env.download = Except.ok docs)
    (hchunks : (collectChunks env.extract docs).1 ≠ [])
    (hok : ingest_documents env force = Except.ok resp) :
    resp.success = true ↔ 0 < resp.num_chunks_indexed := by
  rw [ingest_documents] at hok
  rcases hci : env.createIndex with e | b
  · rw [hci] at hok
    exact absurd hok (by simp)
  · rw [hci] at hok
    dsimp only at hok
    rw [hdl] at hok
    dsimp only at hok
    have hne : docs ≠ [] := by
      intro he
      subst he
      exact hchunks rfl
    rw [if_neg (fun h0 => hne (List.length_eq_zero.mp h0))] at hok
    rcases hcc : collectChunks env.extract docs with ⟨all_chunks, nf, d4⟩
    rw [hcc] at hok
    dsimp only at hok
    rw [hcc] at hchunks
    have hlen : ¬ all_chunks.length = 0 := by
      intro h0
      exact hchunks (List.length_eq_zero.mp h0)
    rw [if_neg hlen] at hok
    rcases he : env.embedTexts (all_chunks.map DocumentChunk.content)
        with e | embeddings
    · rw [he] at hok
      exact absurd hok (by simp)
    · rw [he] at hok
      dsimp only at hok
      rcases hic : index_chunks env.upload all_chunks embeddings with e | stats
      · rw [hic] at hok
        exact absurd hok (by simp)
      · rw [hic] at hok
        dsimp only at hok
        injection hok with hresp
        subst hresp
        simp

/-- An ingest environment over one PDF with one 60-character page, every
collaborator succeeding. -/
def demoIngestEnv : IngestEnv :=
  { deleteIndex := Except.ok true
    createIndex := Except.ok true
    download := Except.ok [⟨"doc.pdf", "u"⟩]
    extract := fun _ => Except.ok
      { filename := "doc.pdf", source_url := "u",
        pages := [⟨1, String.mk (List.replicate 60 'a'), true⟩],
        total_pages := 1, pages_with_text := 1 }
    embedTexts := fun texts => Except.ok (texts.map (fun _ => []))
    upload := fun b => Except.ok (b.map (fun d => ⟨true, d.id, ""⟩)) }

/-- The response of the demo ingest run. -/
def demoIngestResp : IngestResponse :=
  match ingest_documents demoIngestEnv false with
  | Except.ok r => r
  | Except.error _ =>
    { success := false, num_pdfs_processed := 0, num_chunks_indexed := 0,
      num_failures := 0, message := "", details := [] }

/-- Witness for `ingest_success_contract`: the demo run extracts one chunk
and its response satisfies the success iff indexed-chunks equivalence. -/
theorem ingest_success_contract_witness :
    (collectChunks demoIngestEnv.extract [⟨"doc.pdf", "u"⟩]).1 ≠ [] ∧
    (demoIngestResp.success = true ↔ 0 < demoIngestResp.num_chunks_indexed) := by
  constructor
  · decide
  · exact ingest_success_contract demoIngestEnv false demoIngestResp
      [⟨"doc.pdf", "u"⟩] rfl (by decide) (by decide)

/-- C4 counterexample: an ingestion run that finds no PDFs returns
`success = true` with `num_chunks_indexed = 0`, so `success` is not
equivalent to "at least one chunk was indexed" on that run. -/
theorem ingest_success_counterexample :
    ingest_documents
      { deleteIndex := Except.ok true
        createIndex := Except.ok true
        download := Except.ok []
        extract := fun _ => Except.error ()
        embedTexts := fun _ => Except.ok []
        upload := fun _ => Except.error "unused" } false =
      Except.ok
        { success := true
          num_pdfs_processed := 0
          num_chunks_indexed := 0
          num_failures := 0
          message := "No PDFs found in blob storage container"
          details := ["Search index created/updated",
            "Downloaded 0 PDFs from blob storage"] } ∧
    ¬ ((true : Bool) = true ↔ (0 : Nat) > 0) := by
  constructor
  · decide
  · intro h
    have h0 : (0 : Nat) > 0 := h.mp rfl
    omega

end RagPipeline
